import Mathlib

/-!
Shallow embedding of the activation capture and storage engine of the
alignment-observatory repository (crate `microscope`), covering
`src/activation.rs` (Activation, ActivationTrace, ActivationTracer) and
`src/streaming.rs` (ActivationStorage, ActivationRingBuffer,
MemoryEstimator, CaptureStrategy).

Modelling conventions:
- 32-bit floats are represented by their bit patterns, as natural numbers
  below 2^32; `to_le_bytes` / `from_le_bytes` act on those bit patterns,
  so bit-identity of floats is equality of naturals.
- `HashMap<String, V>` is modelled as `String → Option V`.
- The filesystem is part of the storage state: `files` maps a
  (layer, component) key to the byte content of its backing file.
- Fallible operations return `Except`; a Rust panic (index out of
  bounds, usize underflow) is modelled as `Option.none` of a checked
  variant of the operation.
- usize subtractions that can underflow in the source are modelled with
  an explicit check (returning `none` where Rust overflow checking
  panics); additions and multiplications of sizes are modelled on
  unbounded naturals.
-/

/-- Little-endian byte serialization of one 32-bit word (models
`f32::to_le_bytes` applied to the bit pattern). -/
def toLeBytes (x : ℕ) : List ℕ :=
  [x % 256, x / 256 % 256, x / 65536 % 256, x / 16777216 % 256]

/-- Models `f32::from_le_bytes`, reassembling a 32-bit word from four bytes. -/
def fromLeBytes (b0 b1 b2 b3 : ℕ) : ℕ :=
  b0 + 256 * b1 + 65536 * b2 + 16777216 * b3

/-- Serialization of a flat float sequence into bytes, in iteration order
(models `data.iter().flat_map(to_le_bytes).collect()` in `store`). -/
def serBytes : List ℕ → List ℕ
  | [] => []
  | x :: rest => toLeBytes x ++ serBytes rest

/-- Models `bytes.chunks_exact(4).map(f32::from_le_bytes)` in `load`:
groups of four bytes become one word, a trailing remainder is dropped. -/
def chunksExact4 : List ℕ → List ℕ
  | b0 :: b1 :: b2 :: b3 :: rest => fromLeBytes b0 b1 b2 b3 :: chunksExact4 rest
  | _ => []

/-- Model of `ndarray::Array3<f32>`: three dimensions plus the flat data in
logical (row-major) order. -/
structure Array3F where
  d0 : ℕ
  d1 : ℕ
  d2 : ℕ
  data : List ℕ
deriving DecidableEq

/-- Models `Array3::from_shape_vec((d0,d1,d2), v)`: succeeds exactly when the
data length matches the product of the dimensions. -/
def Array3F.from_shape_vec (d0 d1 d2 : ℕ) (v : List ℕ) : Option Array3F :=
  if v.length = d0 * d1 * d2 then some ⟨d0, d1, d2, v⟩ else none

/-- Models `Array3::zeros((d0,d1,d2))`; the bit pattern of 0.0f32 is 0. -/
def Array3F.zeros (d0 d1 d2 : ℕ) : Array3F :=
  ⟨d0, d1, d2, List.replicate (d0 * d1 * d2) 0⟩

/-- Error type of the microscope crate (the variants the capture engine uses). -/
inductive MicroscopeError where
  | layerNotFound (layer total : ℕ)
  | invalidShape (expected got : String)
deriving DecidableEq

/-- Model of `Activation` from `activation.rs`: layer, component name, the
stored shape vector, and the flattened data. The constructor always produces a
rank-3 shape, but deserialized values may carry any shape vector. -/
structure Activation where
  layer : ℕ
  component : String
  shape : List ℕ
  data : List ℕ
deriving DecidableEq

/-- Models `Activation::new`: records the shape of the rank-3 array and its
raw data vector. -/
def Activation.new (layer : ℕ) (component : String) (data : Array3F) : Activation :=
  ⟨layer, component, [data.d0, data.d1, data.d2], data.data⟩

/-- Models `Activation::as_array`, the lenient accessor: indexes
`shape[0]`, `shape[1]`, `shape[2]` (a panic, modelled as `none`, when the
shape has fewer than three entries), then falls back to `zeros((1,1,1))`
when `from_shape_vec` rejects the data length. -/
def Activation.as_array (a : Activation) : Option Array3F :=
  match a.shape with
  | d0 :: d1 :: d2 :: _ =>
    some ((Array3F.from_shape_vec d0 d1 d2 a.data).getD (Array3F.zeros 1 1 1))
  | _ => none

/-- Models `Activation::try_as_array`, the strict accessor: rejects a shape
whose rank is not 3, then propagates the `from_shape_vec` failure. -/
def Activation.try_as_array (a : Activation) : Except MicroscopeError Array3F :=
  if a.shape.length ≠ 3 then
    Except.error (MicroscopeError.invalidShape "3D array" "wrong rank")
  else
    match a.shape with
    | d0 :: d1 :: d2 :: _ =>
      match Array3F.from_shape_vec d0 d1 d2 a.data with
      | some arr => Except.ok arr
      | none => Except.error (MicroscopeError.invalidShape "shape" "length mismatch")
    | _ => Except.error (MicroscopeError.invalidShape "3D array" "wrong rank")

/-- Model of `ActivationTrace`: the activation map keyed by the string
`"{layer}_{component}"`, plus input tokens and architecture. -/
structure ActivationTrace where
  activations : String → Option Activation
  input_tokens : List ℕ
  architecture : String

/-- Key used by `ActivationTrace::add` and `get`: `format!("{}_{}", layer, component)`. -/
def traceKey (layer : ℕ) (component : String) : String :=
  toString layer ++ "_" ++ component

/-- Models `ActivationTrace::new`. -/
def ActivationTrace.new (architecture : String) (input_tokens : List ℕ) : ActivationTrace :=
  ⟨fun _ => none, input_tokens, architecture⟩

/-- Models `ActivationTrace::add`: inserts under the layer-component key,
overwriting any prior value. -/
def ActivationTrace.add (t : ActivationTrace) (a : Activation) : ActivationTrace :=
  { t with activations := fun k =>
      if k = traceKey a.layer a.component then some a else t.activations k }

/-- Models `ActivationTrace::get`. -/
def ActivationTrace.get (t : ActivationTrace) (layer : ℕ) (component : String) :
    Option Activation :=
  t.activations (traceKey layer component)

/-- Model of `ActivationTracer`: the session state. The Rust struct keeps
`current_trace` behind `Arc<RwLock<_>>`; in this single-writer shallow
embedding the lock (and its poisoning recovery) disappears and the field is
plain state threaded through each operation. -/
structure ActivationTracer where
  num_layers : ℕ
  enabled : Bool
  current_trace : Option ActivationTrace
  capture_components : List String

/-- Models `ActivationTracer::new`. -/
def ActivationTracer.new (num_layers : ℕ) : ActivationTracer :=
  { num_layers := num_layers
    enabled := false
    current_trace := none
    capture_components := ["residual", "attn_out", "mlp_out"] }

/-- The Idle state of the session state machine: tracing disabled and no
trace being built (the state reachable before `start_trace` or after
`stop_trace`). -/
def ActivationTracer.Idle (σ : ActivationTracer) : Prop :=
  σ.enabled = false ∧ σ.current_trace = none

/-- Models `ActivationTracer::start_trace`. -/
def ActivationTracer.start_trace (σ : ActivationTracer) (architecture : String)
    (input_tokens : List ℕ) : ActivationTracer :=
  { σ with enabled := true
           current_trace := some (ActivationTrace.new architecture input_tokens) }

/-- Models `ActivationTracer::stop_trace`: disables tracing and takes the
current trace out of the session. -/
def ActivationTracer.stop_trace (σ : ActivationTracer) :
    Option ActivationTrace × ActivationTracer :=
  (σ.current_trace, { σ with enabled := false, current_trace := none })

/-- Models `ActivationTracer::record`, preserving the order of checks in the
source: the disabled early return comes first, then the layer bounds check,
then insertion into the trace when one exists. -/
def ActivationTracer.record (σ : ActivationTracer) (layer : ℕ) (component : String)
    (data : Array3F) : Except MicroscopeError Unit × ActivationTracer :=
  if σ.enabled = false then
    (Except.ok (), σ)
  else if σ.num_layers ≤ layer then
    (Except.error (MicroscopeError.layerNotFound layer σ.num_layers), σ)
  else
    match σ.current_trace with
    | some t =>
      (Except.ok (), { σ with current_trace := some (t.add (Activation.new layer component data)) })
    | none => (Except.ok (), σ)

/-- Models `ActivationTracer::should_capture`. -/
def ActivationTracer.should_capture (σ : ActivationTracer) (component : String) : Bool :=
  σ.capture_components.contains component

/-- Model of `StreamingConfig` from `streaming.rs`. -/
structure StreamingConfig where
  storage_dir : String
  memory_limit_bytes : ℕ
  capture_layers : List ℕ
  capture_components : List String
  use_mmap : Bool
  ring_buffer_size : ℕ
deriving DecidableEq

/-- Models `StreamingConfig::default`. -/
def StreamingConfig.default : StreamingConfig :=
  { storage_dir := "/tmp/alignment_microscope"
    memory_limit_bytes := 4 * 1024 * 1024 * 1024
    capture_layers := []
    capture_components := ["residual", "attn_out", "mlp_out"]
    use_mmap := true
    ring_buffer_size := 1000 }

/-- Model of `ChunkMetadata`. -/
structure ChunkMetadata where
  layer : ℕ
  component : String
  shape : List ℕ
  dtype : String
  offset : ℕ
  size_bytes : ℕ
  token_range : ℕ × ℕ
deriving DecidableEq

/-- Filesystem error outcomes that the storage operations can surface
(`io::Error` kinds used by `streaming.rs`, plus distinguished tags for the
injected create and write failures). -/
inductive IoError where
  | notFound
  | invalidData
  | unexpectedEof
  | createFailed
  | writeFailed
  | getWriterFailed
deriving DecidableEq

/-- Injected filesystem outcome for one `store` call: whether `File::create`
fails, and whether `write_all` fails (carrying the number of bytes the OS
accepted before the failure; `none` means the write succeeds in full). -/
structure FsOutcome where
  create_fails : Bool
  write_fails_after : Option ℕ
deriving DecidableEq

/-- The fully successful filesystem outcome. -/
def FsOutcome.allOk : FsOutcome := ⟨false, none⟩

/-- Model of `ActivationStorage`: the in-memory maps of the Rust struct plus
the relevant slice of the filesystem. `writers` records which keys have an
open file handle; `files` holds the byte content of each backing file, keyed
by the same layer-component key that names the file. -/
structure ActivationStorage where
  storage_dir : String
  metadata : String → Option (List ChunkMetadata)
  offsets : String → Option ℕ
  writers : String → Bool
  files : String → Option (List ℕ)
  config : StreamingConfig

/-- Models `ActivationStorage::new` on the success path of `create_dir_all`:
all maps empty, no files. -/
def ActivationStorage.new (config : StreamingConfig) : ActivationStorage :=
  { storage_dir := config.storage_dir
    metadata := fun _ => none
    offsets := fun _ => none
    writers := fun _ => false
    files := fun _ => none
    config := config }

/-- Models `ActivationStorage::key`: `format!("{}_{}", layer, component)`. -/
def ActivationStorage.key (layer : ℕ) (component : String) : String :=
  toString layer ++ "_" ++ component

/-- Models `ActivationStorage::store`, preserving the order of effects in the
source: allow-list filters first (silent no-op), then lazy `File::create`
(truncating the backing file and registering the writer), then the
`or_insert(0)` offset read, then the byte write, then the metadata append,
then the offset advance. The `fs` argument injects the filesystem outcome;
each failure returns early with exactly the state mutated so far. -/
def ActivationStorage.store (σ : ActivationStorage) (layer : ℕ) (component : String)
    (data : Array3F) (token_range : ℕ × ℕ) (fs : FsOutcome) :
    Except IoError Unit × ActivationStorage :=
  if σ.config.capture_layers ≠ [] ∧ layer ∉ σ.config.capture_layers then
    (Except.ok (), σ)
  else if component ∉ σ.config.capture_components then
    (Except.ok (), σ)
  else
    let key := ActivationStorage.key layer component
    if σ.writers key = false ∧ fs.create_fails then
      (Except.error IoError.createFailed, σ)
    else
      let σ1 : ActivationStorage :=
        if σ.writers key = false then
          { σ with writers := fun k => if k = key then true else σ.writers k
                   files := fun k => if k = key then some [] else σ.files k }
        else σ
      if σ1.writers key = false then
        (Except.error IoError.getWriterFailed, σ1)
      else
        let offset := (σ1.offsets key).getD 0
        let σ2 : ActivationStorage :=
          { σ1 with offsets := fun k => if k = key then some offset else σ1.offsets k }
        let bytes := serBytes data.data
        match fs.write_fails_after with
        | some n =>
          let σ3 : ActivationStorage :=
            { σ2 with files := fun k =>
                if k = key then some (((σ2.files k).getD []) ++ bytes.take n)
                else σ2.files k }
          (Except.error IoError.writeFailed, σ3)
        | none =>
          let σ3 : ActivationStorage :=
            { σ2 with files := fun k =>
                if k = key then some (((σ2.files k).getD []) ++ bytes)
                else σ2.files k }
          let meta : ChunkMetadata :=
            { layer := layer
              component := component
              shape := [data.d0, data.d1, data.d2]
              dtype := "f32"
              offset := offset
              size_bytes := bytes.length
              token_range := token_range }
          let σ4 : ActivationStorage :=
            { σ3 with metadata := fun k =>
                if k = key then some (((σ3.metadata k).getD []) ++ [meta])
                else σ3.metadata k }
          let σ5 : ActivationStorage :=
            { σ4 with offsets := fun k =>
                if k = key then some (offset + bytes.length) else σ4.offsets k }
          (Except.ok (), σ5)

/-- Models `ActivationStorage::flush`: forces buffered writes to be durable.
In this model file contents are already recorded on write, so flushing
succeeds without changing the state. -/
def ActivationStorage.flush (σ : ActivationStorage) :
    Except IoError Unit × ActivationStorage :=
  (Except.ok (), σ)

/-- Models `ActivationStorage::load`: metadata lookup, chunk-index lookup,
`File::open`, seek to the recorded offset, `read_exact` of `size_bytes`,
little-endian reinterpretation via `chunks_exact(4)`, and the final
`from_shape_vec` reshape against the stored shape. -/
def ActivationStorage.load (σ : ActivationStorage) (layer : ℕ) (component : String)
    (chunk_idx : ℕ) : Except IoError Array3F :=
  let key := ActivationStorage.key layer component
  match σ.metadata key with
  | none => Except.error IoError.notFound
  | some chunks =>
    match chunks.get? chunk_idx with
    | none => Except.error IoError.notFound
    | some meta =>
      match σ.files key with
      | none => Except.error IoError.notFound
      | some content =>
        if content.length < meta.offset + meta.size_bytes then
          Except.error IoError.unexpectedEof
        else
          let bytes := (content.drop meta.offset).take meta.size_bytes
          let floats := chunksExact4 bytes
          match Array3F.from_shape_vec (meta.shape.getD 0 0) (meta.shape.getD 1 0)
              (meta.shape.getD 2 0) floats with
          | some arr => Except.ok arr
          | none => Except.error IoError.invalidData

/-- Model of `ActivationRingBuffer`. The Rust buffer holds `Array3<f32>`
values but never inspects them, so the payload type is a parameter here;
`buffer` is the vector of optional slots, `write_pos` the cursor, `count`
the saturating occupancy counter. -/
structure ActivationRingBuffer (α : Type) where
  buffer : List (Option α)
  write_pos : ℕ
  count : ℕ
  layer : ℕ
  component : String

/-- Models `ActivationRingBuffer::new`. -/
def ActivationRingBuffer.new {α : Type} (capacity : ℕ) (layer : ℕ)
    (component : String) : ActivationRingBuffer α :=
  { buffer := List.replicate capacity none
    write_pos := 0
    count := 0
    layer := layer
    component := component }

/-- Models `ActivationRingBuffer::push`: overwrite the slot at the cursor,
advance the cursor modulo the capacity, saturate the count. -/
def ActivationRingBuffer.push {α : Type} (rb : ActivationRingBuffer α)
    (activation : α) : ActivationRingBuffer α :=
  { rb with buffer := rb.buffer.set rb.write_pos (some activation)
            write_pos := (rb.write_pos + 1) % rb.buffer.length
            count := if rb.count < rb.buffer.length then rb.count + 1 else rb.count }

/-- Models `ActivationRingBuffer::recent`, keeping the branching index
arithmetic of the source: for each i below `min n count`, the slot index is
`write_pos - i - 1` when that does not underflow, and wraps to
`len - (i + 1 - write_pos)` otherwise; occupied slots are collected in order. -/
def ActivationRingBuffer.recent {α : Type} (rb : ActivationRingBuffer α) (n : ℕ) :
    List α :=
  let m := min n rb.count
  (List.range m).filterMap (fun i =>
    let idx := if i + 1 ≤ rb.write_pos then rb.write_pos - (i + 1)
               else rb.buffer.length - (i + 1 - rb.write_pos)
    rb.buffer.getD idx none)

/-- Pushing the values `v 0, v 1, ..., v (k-1)` in order, starting from a
given buffer (the loop the recency claim and the source test perform). -/
def ActivationRingBuffer.pushSeq {α : Type} (rb : ActivationRingBuffer α)
    (v : ℕ → α) : ℕ → ActivationRingBuffer α
  | 0 => rb
  | k + 1 => (ActivationRingBuffer.pushSeq rb v k).push (v k)

/-- Model of `CaptureStrategy`. -/
inductive CaptureStrategy where
  | inMemory
  | selectiveLayers (layers : List ℕ)
  | streaming
deriving DecidableEq

/-- Models `MemoryEstimator::estimate_full_capture`: per component
`batch * seq * hidden * 4` bytes, three components per layer. -/
def MemoryEstimator.estimate_full_capture (num_layers hidden_size batch_size
    seq_len : ℕ) : ℕ :=
  let per_component := batch_size * seq_len * hidden_size * 4
  let per_layer := per_component * 3
  num_layers * per_layer

/-- Models `MemoryEstimator::key_layers` with checked usize subtraction: the
source computes `mid - 1` and `num_layers - 2`, which underflow (a panic
under overflow checking) exactly when `num_layers < 2`; that case is `none`.
Otherwise: the first two layers, three around the midpoint, the last two,
filtered to indices below `num_layers` — with no deduplication. -/
def MemoryEstimator.key_layers (num_layers : ℕ) : Option (List ℕ) :=
  let mid := num_layers / 2
  if mid < 1 ∨ num_layers < 2 then none
  else some ((([0, 1] ++ [mid - 1, mid, mid + 1]) ++ [num_layers - 2, num_layers - 1]).filter
    (fun l => l < num_layers))

/-- Models `MemoryEstimator::suggest_strategy`: estimate at batch 1 and
sequence length 1024, then the three-way threshold comparison; `none`
propagates the `key_layers` underflow on the selective path. -/
def MemoryEstimator.suggest_strategy (num_layers hidden_size
    memory_limit_bytes : ℕ) : Option CaptureStrategy :=
  let full_mem := MemoryEstimator.estimate_full_capture num_layers hidden_size 1 1024
  if full_mem < memory_limit_bytes then some CaptureStrategy.inMemory
  else if full_mem < memory_limit_bytes * 4 then
    (MemoryEstimator.key_layers num_layers).map CaptureStrategy.selectiveLayers
  else some CaptureStrategy.streaming

/-!
The three `MemoryEstimator` definitions above put the size additions and
multiplications on unbounded naturals, which is exact at every concrete
input whose intermediate usize arithmetic stays below 2^64 (all inputs the
theorems about them evaluate). The `..._checked` variants below model the
same three source functions under overflow-checked (debug) usize semantics:
every addition, subtraction, and multiplication of the source is an
individual checked operation on 64-bit usize, in source evaluation order,
and `none` models the overflow or underflow panic.
-/

/-- Checked usize multiplication: `none` models the overflow panic. -/
def usizeMul (a b : ℕ) : Option ℕ :=
  if a * b < 18446744073709551616 then some (a * b) else none

/-- Checked usize addition: `none` models the overflow panic. -/
def usizeAdd (a b : ℕ) : Option ℕ :=
  if a + b < 18446744073709551616 then some (a + b) else none

/-- Checked usize subtraction: `none` models the underflow panic. -/
def usizeSub (a b : ℕ) : Option ℕ :=
  if b ≤ a then some (a - b) else none

/-- Models `MemoryEstimator::estimate_full_capture` with every usize
multiplication checked, in source evaluation order:
`batch_size * seq_len * hidden_size * 4`, then `per_component * 3`, then
`num_layers * per_layer`. -/
def MemoryEstimator.estimate_full_capture_checked (num_layers hidden_size
    batch_size seq_len : ℕ) : Option ℕ :=
  match usizeMul batch_size seq_len with
  | none => none
  | some t1 =>
    match usizeMul t1 hidden_size with
    | none => none
    | some t2 =>
      match usizeMul t2 4 with
      | none => none
      | some per_component =>
        match usizeMul per_component 3 with
        | none => none
        | some per_layer => usizeMul num_layers per_layer

/-- Models `MemoryEstimator::key_layers` with every usize operation checked,
in source evaluation order: `mid - 1`, `mid + 1`, `num_layers - 2`,
`num_layers - 1`, then the filter to indices below `num_layers`. -/
def MemoryEstimator.key_layers_checked (num_layers : ℕ) : Option (List ℕ) :=
  let mid := num_layers / 2
  match usizeSub mid 1 with
  | none => none
  | some m1 =>
    match usizeAdd mid 1 with
    | none => none
    | some mp1 =>
      match usizeSub num_layers 2 with
      | none => none
      | some n2 =>
        match usizeSub num_layers 1 with
        | none => none
        | some n1 =>
          some ((([0, 1] ++ [m1, mid, mp1]) ++ [n2, n1]).filter
            (fun l => l < num_layers))

/-- Models `MemoryEstimator::suggest_strategy` with every usize operation
checked: the estimate at batch 1 and sequence 1024, and the product
`memory_limit_bytes * 4`, which the source evaluates only when the first
threshold comparison fails. -/
def MemoryEstimator.suggest_strategy_checked (num_layers hidden_size
    memory_limit_bytes : ℕ) : Option CaptureStrategy :=
  match MemoryEstimator.estimate_full_capture_checked num_layers hidden_size 1 1024 with
  | none => none
  | some full_mem =>
    if full_mem < memory_limit_bytes then some CaptureStrategy.inMemory
    else
      match usizeMul memory_limit_bytes 4 with
      | none => none
      | some limit4 =>
        if full_mem < limit4 then
          (MemoryEstimator.key_layers_checked num_layers).map
            CaptureStrategy.selectiveLayers
        else some CaptureStrategy.streaming

/-!
Theorems for the frozen claims C1 through C10.
-/

/-- C1 counterexample: the claim says `record` with an out-of-bounds layer
fails with `LayerNotFound` even in the Idle state, but a freshly constructed
tracer (3 layers, Idle) accepts `record(5, ...)` with `Ok` and an unchanged
state, because the disabled early return precedes the bounds check. -/
theorem C1_counterexample :
    (ActivationTracer.new 3).Idle ∧ 3 ≤ 5 ∧
    (ActivationTracer.new 3).record 5 "residual" ⟨1, 1, 1, [0]⟩ =
      (Except.ok (), ActivationTracer.new 3) :=
  ⟨⟨rfl, rfl⟩, by omega, rfl⟩

/-- C1 amended: the `LayerNotFound{layer, total_layers}` failure for
`layer ≥ num_layers` happens only while tracing is enabled (Active); while
disabled (Idle), `record` returns success with the state unchanged for every
layer, in-bounds or not. -/
theorem C1_bounds_check_only_when_active (σ : ActivationTracer) (layer : ℕ)
    (component : String) (data : Array3F) :
    (σ.enabled = false → σ.record layer component data = (Except.ok (), σ)) ∧
    (σ.enabled = true → σ.num_layers ≤ layer →
      σ.record layer component data =
        (Except.error (MicroscopeError.layerNotFound layer σ.num_layers), σ)) := by
  constructor
  · intro h
    simp [ActivationTracer.record, h]
  · intro h hl
    simp [ActivationTracer.record, h, hl]

/-- C1 amended, witness: instantiated at a 3-layer tracer, layer 5, in the
Idle state and then in the Active state reached by `start_trace`. -/
theorem C1_bounds_check_only_when_active_witness :
    (ActivationTracer.new 3).record 5 "residual" ⟨1, 1, 1, [0]⟩ =
      (Except.ok (), ActivationTracer.new 3) ∧
    ((ActivationTracer.new 3).start_trace "gpt2" [1, 2]).record 5 "residual" ⟨1, 1, 1, [0]⟩ =
      (Except.error (MicroscopeError.layerNotFound 5 3),
        (ActivationTracer.new 3).start_trace "gpt2" [1, 2]) :=
  ⟨(C1_bounds_check_only_when_active (ActivationTracer.new 3) 5 "residual"
      ⟨1, 1, 1, [0]⟩).1 rfl,
   (C1_bounds_check_only_when_active ((ActivationTracer.new 3).start_trace "gpt2" [1, 2])
      5 "residual" ⟨1, 1, 1, [0]⟩).2 rfl (by decide)⟩

/-- C2: evaluation of `suggest_strategy` at the two inputs named by the claim
and by the in-repo test `test_memory_estimator`. At 12 layers, hidden 768,
limit 4 GiB the result is `InMemory` as claimed; at 80 layers, hidden 8192,
limit 4 GiB the byte estimate is 8053063680, which is below four times the
limit, so the code returns `SelectiveLayers`, not the `Streaming` the claim
and the test demand. -/
theorem C2_suggest_strategy_at_test_inputs :
    MemoryEstimator.suggest_strategy 12 768 (4 * 1024 * 1024 * 1024) =
      some CaptureStrategy.inMemory ∧
    MemoryEstimator.estimate_full_capture 80 8192 1 1024 = 8053063680 ∧
    8053063680 < (4 * 1024 * 1024 * 1024) * 4 ∧
    MemoryEstimator.suggest_strategy 80 8192 (4 * 1024 * 1024 * 1024) =
      some (CaptureStrategy.selectiveLayers [0, 1, 39, 40, 41, 78, 79]) := by
  refine ⟨by decide, by decide, by decide, by decide⟩

/-- C5 counterexample: at `num_layers = 6` the key-layer list is
`[0, 1, 2, 3, 4, 4, 5]` — the midpoint group and the last-two group overlap
and the index 4 appears twice, so the produced list is not deduplicated; the
same list is what the SelectiveLayers recommendation carries. -/
theorem C5_counterexample :
    MemoryEstimator.key_layers 6 = some [0, 1, 2, 3, 4, 4, 5] ∧
    MemoryEstimator.suggest_strategy 6 1 73728 =
      some (CaptureStrategy.selectiveLayers [0, 1, 2, 3, 4, 4, 5]) ∧
    ¬ ([0, 1, 2, 3, 4, 4, 5] : List ℕ).Nodup := by
  refine ⟨by decide, by decide, by decide⟩

/-- C5 amended: for every `num_layers ≥ 2` the key-layer list consists of
exactly the indices among the first two layers, the three layers centered on
the midpoint, and the last two layers that are below `num_layers` (clipping
holds), but the list is not deduplicated: overlapping groups repeat an
index, as the counterexample at 6 layers shows. -/
theorem C5_key_layers_clipped_membership (num_layers : ℕ) (h2 : 2 ≤ num_layers) :
    ∃ l, MemoryEstimator.key_layers num_layers = some l ∧
      ∀ x, x ∈ l ↔ x < num_layers ∧
        (x = 0 ∨ x = 1 ∨ x = num_layers / 2 - 1 ∨ x = num_layers / 2 ∨
         x = num_layers / 2 + 1 ∨ x = num_layers - 2 ∨ x = num_layers - 1) := by
  have hcond : ¬ (num_layers / 2 < 1 ∨ num_layers < 2) := by omega
  refine ⟨(([0, 1] ++ [num_layers / 2 - 1, num_layers / 2, num_layers / 2 + 1]) ++
      [num_layers - 2, num_layers - 1]).filter (fun l => l < num_layers), ?_, ?_⟩
  · simp only [MemoryEstimator.key_layers]
    rw [if_neg hcond]
  · intro x
    simp only [List.mem_filter, List.mem_append, List.mem_cons, List.mem_singleton,
      List.not_mem_nil, or_false, decide_eq_true_eq]
    tauto

/-- C5 amended, witness: instantiated at 6 layers, where the clipped,
non-deduplicated list is `[0, 1, 2, 3, 4, 4, 5]` and membership matches the
three groups. -/
theorem C5_key_layers_clipped_membership_witness :
    ∃ l, MemoryEstimator.key_layers 6 = some l ∧
      ∀ x, x ∈ l ↔ x < 6 ∧
        (x = 0 ∨ x = 1 ∨ x = 6 / 2 - 1 ∨ x = 6 / 2 ∨ x = 6 / 2 + 1 ∨
         x = 6 - 2 ∨ x = 6 - 1) :=
  C5_key_layers_clipped_membership 6 (by decide)

/-- C6 counterexample: an `Activation` whose stored shape has rank 2 (such a
value is constructible through deserialization) makes `as_array` index
`shape[2]` out of bounds — a panic, modelled as `none` — so the lenient
accessor does abort on wrong-rank shapes rather than degrading to the
zero-filled fallback. -/
theorem C6_counterexample :
    (⟨0, "residual", [1, 1], [0]⟩ : Activation).as_array = none ∧
    ([1, 1] : List ℕ).length ≠ 3 := by
  refine ⟨rfl, by decide⟩

/-- C6 amended: for every `Activation` whose stored shape has rank at least
3, `as_array` returns without failing: the array built from the first three
dimensions and the stored data when the data length matches their product,
and the well-defined zero-filled 1×1×1 fallback otherwise. Shapes of rank
below 3 instead panic on the shape indexing. -/
theorem C6_as_array_lenient (a : Activation) (d0 d1 d2 : ℕ) (rest : List ℕ)
    (hshape : a.shape = d0 :: d1 :: d2 :: rest) :
    a.as_array.isSome ∧
    (a.data.length = d0 * d1 * d2 → a.as_array = some ⟨d0, d1, d2, a.data⟩) ∧
    (a.data.length ≠ d0 * d1 * d2 → a.as_array = some (Array3F.zeros 1 1 1)) := by
  obtain ⟨al, ac, ash, ad⟩ := a
  simp only at hshape
  subst hshape
  refine ⟨?_, ?_, ?_⟩
  · simp [Activation.as_array]
  · intro h
    simp only at h
    simp [Activation.as_array, Array3F.from_shape_vec, h]
  · intro h
    simp only at h
    simp [Activation.as_array, Array3F.from_shape_vec, h]

/-- C6 amended, witness: a rank-3 activation with matching data length round
trips through the lenient accessor, returning the stored array. -/
theorem C6_as_array_lenient_witness :
    (⟨0, "residual", [1, 2, 3], [7, 7, 7, 7, 7, 7]⟩ : Activation).as_array =
      some ⟨1, 2, 3, [7, 7, 7, 7, 7, 7]⟩ :=
  (C6_as_array_lenient ⟨0, "residual", [1, 2, 3], [7, 7, 7, 7, 7, 7]⟩ 1 2 3 [] rfl).2.1
    (by decide)

/-- C7: in the Idle state, `record` of a valid layer returns success and
leaves the session state untouched; `stop_trace` returns nothing in the Idle
state, both directly and after such a `record`. -/
theorem C7_idle_record_is_silent_noop (σ : ActivationTracer) (layer : ℕ)
    (component : String) (data : Array3F) (hIdle : σ.Idle)
    (hlayer : layer < σ.num_layers) :
    σ.record layer component data = (Except.ok (), σ) ∧
    σ.stop_trace.1 = none ∧
    ((σ.record layer component data).2.stop_trace).1 = none := by
  obtain ⟨he, ht⟩ := hIdle
  refine ⟨?_, ?_, ?_⟩
  · simp [ActivationTracer.record, he]
  · simp [ActivationTracer.stop_trace, ht]
  · simp [ActivationTracer.record, ActivationTracer.stop_trace, he, ht]

/-- C7 witness: instantiated at a fresh 3-layer tracer (which is Idle) and
the valid layer 0. -/
theorem C7_idle_record_is_silent_noop_witness :
    (ActivationTracer.new 3).record 0 "residual" ⟨1, 1, 1, [0]⟩ =
      (Except.ok (), ActivationTracer.new 3) ∧
    (ActivationTracer.new 3).stop_trace.1 = none ∧
    (((ActivationTracer.new 3).record 0 "residual" ⟨1, 1, 1, [0]⟩).2.stop_trace).1 = none :=
  C7_idle_record_is_silent_noop (ActivationTracer.new 3) 0 "residual" ⟨1, 1, 1, [0]⟩
    ⟨rfl, rfl⟩ (by decide)

/-- C10 counterexample: at `num_layers = 2` and `hidden_size = 2^52` the
estimate computation `1024 * 2^52 * 4` reaches exactly 2^64, overflowing
usize, so under the same overflow-checked semantics whose underflow panic
the claim itself invokes, `suggest_strategy` panics for that hidden size at
any memory limit — refuting the claim that every `num_layers ≥ 2` yields a
strategy without panicking for every hidden size and limit. -/
theorem C10_counterexample :
    2 ≤ 2 ∧
    MemoryEstimator.estimate_full_capture_checked 2 4503599627370496 1 1024 = none ∧
    MemoryEstimator.suggest_strategy_checked 2 4503599627370496 1 = none := by
  refine ⟨by decide, by decide, by decide⟩

/-- C10 amended: under overflow-checked usize semantics, for every
`num_layers ≥ 2` that fits in usize, every hidden size whose byte estimate
at batch 1 and sequence 1024 does not overflow, and every memory limit with
`memory_limit_bytes * 4` below 2^64, `suggest_strategy` returns one of the
three strategies without panicking; `num_layers ≥ 2` remains necessary on
the SelectiveLayers path, because the key-layer subtractions underflow for
`num_layers < 2` and `suggest_strategy(1, 1, 12288)` reaches that underflow. -/
theorem C10_suggest_strategy_checked_total (num_layers hidden_size
    memory_limit_bytes : ℕ) :
    (2 ≤ num_layers → num_layers < 18446744073709551616 →
      MemoryEstimator.estimate_full_capture_checked num_layers hidden_size 1 1024 ≠ none →
      memory_limit_bytes * 4 < 18446744073709551616 →
      (MemoryEstimator.suggest_strategy_checked num_layers hidden_size
        memory_limit_bytes).isSome) ∧
    (num_layers < 2 → MemoryEstimator.key_layers_checked num_layers = none) ∧
    MemoryEstimator.suggest_strategy_checked 1 1 12288 = none := by
  refine ⟨?_, ?_, by decide⟩
  · intro h2 hn hf hl
    rcases hfm : MemoryEstimator.estimate_full_capture_checked num_layers hidden_size 1 1024
      with _ | fm
    · exact absurd hfm hf
    · have h1 : (1 : ℕ) ≤ num_layers / 2 := by omega
      have hadd : num_layers / 2 + 1 < 18446744073709551616 := by omega
      have hn1 : (1 : ℕ) ≤ num_layers := by omega
      have hs1 : usizeSub (num_layers / 2) 1 = some (num_layers / 2 - 1) := by
        simp [usizeSub, h1]
      have ha1 : usizeAdd (num_layers / 2) 1 = some (num_layers / 2 + 1) := by
        simp [usizeAdd, hadd]
      have hs2 : usizeSub num_layers 2 = some (num_layers - 2) := by
        simp [usizeSub, h2]
      have hs3 : usizeSub num_layers 1 = some (num_layers - 1) := by
        simp [usizeSub, hn1]
      have hkey : (MemoryEstimator.key_layers_checked num_layers).isSome := by
        simp only [MemoryEstimator.key_layers_checked, hs1, ha1, hs2, hs3]
        rfl
      have hm4 : usizeMul memory_limit_bytes 4 = some (memory_limit_bytes * 4) := by
        simp [usizeMul, hl]
      simp only [MemoryEstimator.suggest_strategy_checked, hfm, hm4]
      split
      · rfl
      · split
        · obtain ⟨l, hkl⟩ := Option.isSome_iff_exists.mp hkey
          rw [hkl]
          rfl
        · rfl
  · intro h2
    have hcond : ¬ (1 ≤ num_layers / 2) := by omega
    simp only [MemoryEstimator.key_layers_checked, usizeSub]
    rw [if_neg hcond]

/-- C10 amended, witness: at 2 layers, hidden size 1, and limit 1 every
checked operation stays in range and a strategy is returned, while at 1
layer the checked key-layer computation underflows. -/
theorem C10_suggest_strategy_checked_total_witness :
    (MemoryEstimator.suggest_strategy_checked 2 1 1).isSome ∧
    MemoryEstimator.key_layers_checked 1 = none :=
  ⟨(C10_suggest_strategy_checked_total 2 1 1).1 (by decide) (by decide) (by decide)
      (by decide),
   (C10_suggest_strategy_checked_total 1 1 1).2.1 (by decide)⟩

/-- C8: a `store` call whose layer is excluded by a non-empty layer
allow-list, or whose component is excluded by the component allow-list,
returns success with the storage state — file map, metadata index, offset
counters, writer handles — exactly unchanged, for every filesystem outcome. -/
theorem C8_store_filtered_is_transparent (σ : ActivationStorage) (layer : ℕ)
    (component : String) (data : Array3F) (token_range : ℕ × ℕ) (fs : FsOutcome)
    (h : (σ.config.capture_layers ≠ [] ∧ layer ∉ σ.config.capture_layers) ∨
         component ∉ σ.config.capture_components) :
    σ.store layer component data token_range fs = (Except.ok (), σ) := by
  rcases h with h | h
  · simp only [ActivationStorage.store]
    rw [if_pos h]
  · by_cases hl : σ.config.capture_layers ≠ [] ∧ layer ∉ σ.config.capture_layers
    · simp only [ActivationStorage.store]
      rw [if_pos hl]
    · simp only [ActivationStorage.store]
      rw [if_neg hl, if_pos h]

/-- C8 witness: a fresh store configured to capture only layer 0 ignores a
layer-1 store, and a store whose component allow-list lacks the component
ignores it too, in both cases leaving the state untouched. -/
theorem C8_store_filtered_is_transparent_witness :
    (ActivationStorage.new { StreamingConfig.default with capture_layers := [0] }).store
        1 "residual" ⟨1, 1, 1, [0]⟩ (0, 1) FsOutcome.allOk =
      (Except.ok (), ActivationStorage.new
        { StreamingConfig.default with capture_layers := [0] }) ∧
    (ActivationStorage.new StreamingConfig.default).store 0 "nonesuch" ⟨1, 1, 1, [0]⟩
        (0, 1) FsOutcome.allOk =
      (Except.ok (), ActivationStorage.new StreamingConfig.default) :=
  ⟨C8_store_filtered_is_transparent _ 1 "residual" ⟨1, 1, 1, [0]⟩ (0, 1) FsOutcome.allOk
      (Or.inl (by decide)),
   C8_store_filtered_is_transparent _ 0 "nonesuch" ⟨1, 1, 1, [0]⟩ (0, 1) FsOutcome.allOk
      (Or.inr (by decide))⟩

/-- C9: whenever a `store` call fails with an I/O error — the lazy file
creation failing, or the byte write failing after any number of accepted
bytes — the metadata index is exactly the one before the call and every
per-key offset counter still reads the same value, so no `ChunkMetadata` is
recorded for the failed chunk and no offset is advanced. -/
theorem C9_store_failure_preserves_index (σ : ActivationStorage) (layer : ℕ)
    (component : String) (data : Array3F) (token_range : ℕ × ℕ) (fs : FsOutcome)
    (e : IoError)
    (h : (σ.store layer component data token_range fs).1 = Except.error e) :
    (σ.store layer component data token_range fs).2.metadata = σ.metadata ∧
    ∀ k, ((σ.store layer component data token_range fs).2.offsets k).getD 0 =
      (σ.offsets k).getD 0 := by
  by_cases hA : σ.config.capture_layers ≠ [] ∧ layer ∉ σ.config.capture_layers
  · simp only [ActivationStorage.store] at h ⊢
    rw [if_pos hA] at h
    exact absurd h (by simp)
  by_cases hB : component ∉ σ.config.capture_components
  · simp only [ActivationStorage.store] at h ⊢
    rw [if_neg hA, if_pos hB] at h
    exact absurd h (by simp)
  by_cases hC : σ.writers (ActivationStorage.key layer component) = false ∧ fs.create_fails
  · simp only [ActivationStorage.store] at h ⊢
    rw [if_neg hA, if_neg hB, if_pos hC]
    exact ⟨rfl, fun _ => rfl⟩
  · obtain ⟨cf, wfa⟩ := fs
    rcases wfa with _ | n
    · -- the write succeeds, so the call returns Ok, contradicting h
      simp only [ActivationStorage.store] at h
      rw [if_neg hA, if_neg hB, if_neg hC] at h
      by_cases hw : σ.writers (ActivationStorage.key layer component) = false
      · simp only [hw, if_true, if_pos] at h
        simp at h
      · simp only [hw] at h
        simp [hw] at h
    · -- the write fails after n bytes: only writers, files, and the
      -- or_insert materialization of the offset entry changed
      simp only [ActivationStorage.store] at h ⊢
      rw [if_neg hA, if_neg hB, if_neg hC] at h ⊢
      by_cases hw : σ.writers (ActivationStorage.key layer component) = false
      · simp only [hw, if_true] at h ⊢
        refine ⟨by simp, fun k => ?_⟩
        by_cases hk : k = ActivationStorage.key layer component
        · subst hk
          simp
        · simp [hk]
      · simp only [hw, if_false] at h ⊢
        refine ⟨by simp [hw], fun k => ?_⟩
        by_cases hk : k = ActivationStorage.key layer component
        · subst hk
          simp [hw]
        · simp [hw, hk]

/-- C9 witness: a fresh default store whose first write fails after two
bytes reports the write error, records no chunk metadata, and leaves the
offset counter for the touched key reading zero. -/
theorem C9_store_failure_preserves_index_witness :
    ((ActivationStorage.new StreamingConfig.default).store 0 "residual" ⟨1, 1, 1, [5]⟩
        (0, 1) ⟨false, some 2⟩).1 = Except.error IoError.writeFailed ∧
    ((ActivationStorage.new StreamingConfig.default).store 0 "residual" ⟨1, 1, 1, [5]⟩
        (0, 1) ⟨false, some 2⟩).2.metadata =
      (ActivationStorage.new StreamingConfig.default).metadata ∧
    (((ActivationStorage.new StreamingConfig.default).store 0 "residual" ⟨1, 1, 1, [5]⟩
        (0, 1) ⟨false, some 2⟩).2.offsets (ActivationStorage.key 0 "residual")).getD 0 =
      ((ActivationStorage.new StreamingConfig.default).offsets
        (ActivationStorage.key 0 "residual")).getD 0 := by
  have h1 : ((ActivationStorage.new StreamingConfig.default).store 0 "residual"
      ⟨1, 1, 1, [5]⟩ (0, 1) ⟨false, some 2⟩).1 = Except.error IoError.writeFailed := rfl
  have h2 := C9_store_failure_preserves_index (ActivationStorage.new StreamingConfig.default)
    0 "residual" ⟨1, 1, 1, [5]⟩ (0, 1) ⟨false, some 2⟩ IoError.writeFailed h1
  exact ⟨h1, h2.1, h2.2 (ActivationStorage.key 0 "residual")⟩

/-- Serialization round trip on flat float data: rechunking the
little-endian byte stream of a word list recovers the list, provided every
word fits in 32 bits. -/
theorem chunksExact4_serBytes (l : List ℕ) (h : ∀ x ∈ l, x < 4294967296) :
    chunksExact4 (serBytes l) = l := by
  induction l with
  | nil => rfl
  | cons x rest ih =>
    have hx : x < 4294967296 := h x (List.mem_cons_self x rest)
    have hrest : ∀ y ∈ rest, y < 4294967296 :=
      fun y hy => h y (List.mem_cons_of_mem x hy)
    simp only [serBytes, toLeBytes, List.cons_append, List.append_eq, List.nil_append,
      chunksExact4]
    rw [ih hrest]
    have : fromLeBytes (x % 256) (x / 256 % 256) (x / 65536 % 256) (x / 16777216 % 256) = x := by
      unfold fromLeBytes
      omega
    rw [this]

/-- C4: storing a tensor that passes the allow-lists, flushing, and loading
the chunk just appended (its index is the prior chunk count for that key)
returns a tensor with the identical shape and bit-identical float data. The
`hwf` hypothesis is the offset invariant the store maintains for every key:
an open writer has its recorded offset equal to the current file length, and
a key without a writer has no offset entry yet. -/
theorem C4_store_flush_load_roundtrip (σ : ActivationStorage) (layer : ℕ)
    (component : String) (data : Array3F) (token_range : ℕ × ℕ)
    (hfl : σ.config.capture_layers = [] ∨ layer ∈ σ.config.capture_layers)
    (hfc : component ∈ σ.config.capture_components)
    (hlen : data.data.length = data.d0 * data.d1 * data.d2)
    (hbits : ∀ x ∈ data.data, x < 4294967296)
    (hwf : (σ.writers (ActivationStorage.key layer component) = true →
             σ.offsets (ActivationStorage.key layer component) =
               some ((σ.files (ActivationStorage.key layer component)).getD []).length) ∧
           (σ.writers (ActivationStorage.key layer component) = false →
             σ.offsets (ActivationStorage.key layer component) = none)) :
    ∃ σ1, σ.store layer component data token_range FsOutcome.allOk = (Except.ok (), σ1) ∧
      σ1.flush = (Except.ok (), σ1) ∧
      σ1.load layer component
          ((σ.metadata (ActivationStorage.key layer component)).getD []).length =
        Except.ok data := by
  have hA : ¬ (σ.config.capture_layers ≠ [] ∧ layer ∉ σ.config.capture_layers) := by
    rcases hfl with h | h
    · simp [h]
    · simp [h]
  have hB : ¬ (component ∉ σ.config.capture_components) := by simp [hfc]
  refine ⟨(σ.store layer component data token_range FsOutcome.allOk).2, ?_, rfl, ?_⟩
  · have hfst : (σ.store layer component data token_range FsOutcome.allOk).1 =
        Except.ok () := by
      by_cases hw : σ.writers (ActivationStorage.key layer component) = false
      · simp only [ActivationStorage.store]
        rw [if_neg hA, if_neg hB]
        simp [FsOutcome.allOk, hw]
      · simp only [ActivationStorage.store]
        rw [if_neg hA, if_neg hB]
        simp [FsOutcome.allOk, hw]
    exact Prod.ext hfst rfl
  · by_cases hw : σ.writers (ActivationStorage.key layer component) = false
    · -- first store for this key: the file is created empty, offset starts at 0
      have hoff : σ.offsets (ActivationStorage.key layer component) = none := hwf.2 hw
      have hmeta : (σ.store layer component data token_range FsOutcome.allOk).2.metadata
          (ActivationStorage.key layer component) =
          some (((σ.metadata (ActivationStorage.key layer component)).getD []) ++
            [⟨layer, component, [data.d0, data.d1, data.d2], "f32", 0,
              (serBytes data.data).length, token_range⟩]) := by
        simp only [ActivationStorage.store]
        rw [if_neg hA, if_neg hB]
        simp [FsOutcome.allOk, hw, hoff]
      have hfile : (σ.store layer component data token_range FsOutcome.allOk).2.files
          (ActivationStorage.key layer component) = some (serBytes data.data) := by
        simp only [ActivationStorage.store]
        rw [if_neg hA, if_neg hB]
        simp [FsOutcome.allOk, hw, hoff]
      simp only [ActivationStorage.load, hmeta, hfile]
      rw [List.get?_concat_length]
      simp only [Nat.zero_add, Nat.lt_irrefl, if_false, List.drop_zero]
      rw [List.take_length, chunksExact4_serBytes data.data hbits]
      simp [Array3F.from_shape_vec, hlen]
    · -- later store: bytes are appended at the recorded offset
      have hw' : σ.writers (ActivationStorage.key layer component) = true := by
        revert hw
        cases σ.writers (ActivationStorage.key layer component) <;> simp
      have hoff : σ.offsets (ActivationStorage.key layer component) =
          some ((σ.files (ActivationStorage.key layer component)).getD []).length :=
        hwf.1 hw'
      have hmeta : (σ.store layer component data token_range FsOutcome.allOk).2.metadata
          (ActivationStorage.key layer component) =
          some (((σ.metadata (ActivationStorage.key layer component)).getD []) ++
            [⟨layer, component, [data.d0, data.d1, data.d2], "f32",
              ((σ.files (ActivationStorage.key layer component)).getD []).length,
              (serBytes data.data).length, token_range⟩]) := by
        simp only [ActivationStorage.store]
        rw [if_neg hA, if_neg hB]
        simp [FsOutcome.allOk, hw, hoff]
      have hfile : (σ.store layer component data token_range FsOutcome.allOk).2.files
          (ActivationStorage.key layer component) =
          some (((σ.files (ActivationStorage.key layer component)).getD []) ++
            serBytes data.data) := by
        simp only [ActivationStorage.store]
        rw [if_neg hA, if_neg hB]
        simp [FsOutcome.allOk, hw, hoff]
      simp only [ActivationStorage.load, hmeta, hfile]
      rw [List.get?_concat_length]
      simp only [List.length_append, Nat.lt_irrefl, if_false]
      rw [List.drop_left, List.take_length, chunksExact4_serBytes data.data hbits]
      simp [Array3F.from_shape_vec, hlen]

/-- C4 witness: a fresh default store round trips the 1×2×2 tensor with bit
patterns 3, 1, 4, 1 through store, flush, and load of chunk 0. -/
theorem C4_store_flush_load_roundtrip_witness :
    ∃ σ1, (ActivationStorage.new StreamingConfig.default).store 0 "residual"
        ⟨1, 2, 2, [3, 1, 4, 1]⟩ (0, 2) FsOutcome.allOk = (Except.ok (), σ1) ∧
      σ1.flush = (Except.ok (), σ1) ∧
      σ1.load 0 "residual"
          (((ActivationStorage.new StreamingConfig.default).metadata
            (ActivationStorage.key 0 "residual")).getD []).length =
        Except.ok ⟨1, 2, 2, [3, 1, 4, 1]⟩ :=
  C4_store_flush_load_roundtrip (ActivationStorage.new StreamingConfig.default) 0
    "residual" ⟨1, 2, 2, [3, 1, 4, 1]⟩ (0, 2) (Or.inl rfl) (by decide) (by decide)
    (by decide) ⟨fun h => absurd h (by decide), fun _ => rfl⟩

/-- Adding a nonzero offset below the modulus moves a reduced residue. -/
theorem add_mod_ne_self (r d c : ℕ) (hr : r < c) (hd1 : 1 ≤ d) (hd2 : d < c) :
    (r + d) % c ≠ r := by
  rcases Nat.lt_or_ge (r + d) c with h | h
  · rw [Nat.mod_eq_of_lt h]
    omega
  · rw [Nat.mod_eq_sub_mod h, Nat.mod_eq_of_lt (by omega)]
    omega

/-- A `filterMap` over an index range whose function always hits is a `map`. -/
theorem range_filterMap_eq_map {α : Type} (n : ℕ) (f : ℕ → Option α) (g : ℕ → α)
    (h : ∀ i, i < n → f i = some (g i)) :
    (List.range n).filterMap f = (List.range n).map g := by
  induction n with
  | zero => rfl
  | succ m ih =>
    rw [List.range_succ, List.filterMap_append, List.map_append,
      ih (fun i hi => h i (Nat.lt_succ_of_lt hi))]
    simp [h m (Nat.lt_succ_self m)]

/-- State characterization of the ring buffer after pushing `v 0 ... v (k-1)`
into a fresh buffer of capacity `c ≥ 1`: the buffer length is preserved, the
cursor sits at `k mod c`, the count is `min k c`, and for every `i` below the
count the slot at `(write_pos + (c - 1 - i)) mod c` holds the i-th most
recent value `v (k - 1 - i)`. -/
theorem pushSeq_invariant {α : Type} (c : ℕ) (layer : ℕ) (component : String)
    (v : ℕ → α) (hc : 1 ≤ c) (k : ℕ) :
    ((ActivationRingBuffer.new c layer component).pushSeq v k).buffer.length = c ∧
    ((ActivationRingBuffer.new c layer component).pushSeq v k).write_pos = k % c ∧
    ((ActivationRingBuffer.new c layer component).pushSeq v k).count = min k c ∧
    ∀ i, i < min k c →
      ((ActivationRingBuffer.new c layer component).pushSeq v k).buffer.getD
          ((((ActivationRingBuffer.new c layer component).pushSeq v k).write_pos +
            (c - 1 - i)) % c) none = some (v (k - 1 - i)) := by
  induction k with
  | zero =>
    refine ⟨?_, ?_, ?_, ?_⟩
    · simp [ActivationRingBuffer.pushSeq, ActivationRingBuffer.new]
    · simp [ActivationRingBuffer.pushSeq, ActivationRingBuffer.new]
    · simp [ActivationRingBuffer.pushSeq, ActivationRingBuffer.new]
    · intro i hi
      omega
  | succ k ih =>
    obtain ⟨hlen, hwp, hcnt, hslots⟩ := ih
    have hwlt : k % c < c := Nat.mod_lt k (by omega)
    have hlen' :
        ((ActivationRingBuffer.new c layer component).pushSeq v (k + 1)).buffer.length = c := by
      simp only [ActivationRingBuffer.pushSeq, ActivationRingBuffer.push,
        List.length_set]
      exact hlen
    have hwp' :
        ((ActivationRingBuffer.new c layer component).pushSeq v (k + 1)).write_pos =
          (k + 1) % c := by
      simp only [ActivationRingBuffer.pushSeq, ActivationRingBuffer.push,
        List.length_set, hlen, hwp]
      exact Nat.mod_add_mod k c 1
    refine ⟨hlen', hwp', ?_, ?_⟩
    · simp only [ActivationRingBuffer.pushSeq, ActivationRingBuffer.push,
        List.length_set, hlen, hcnt]
      split <;> omega
    · intro i hi
      rw [hwp']
      simp only [ActivationRingBuffer.pushSeq, ActivationRingBuffer.push]
      rcases Nat.eq_zero_or_pos i with hi0 | hipos
      · subst hi0
        have hidx : ((k + 1) % c + (c - 1 - 0)) % c = k % c := by
          rw [Nat.mod_add_mod]
          have harg : k + 1 + (c - 1 - 0) = k + c := by omega
          rw [harg, Nat.add_mod_right]
        rw [hidx, hwp]
        have hset : k % c < ((ActivationRingBuffer.new c layer component).pushSeq
            v k).buffer.length := by omega
        simp [List.getD_eq_getElem?_getD, List.getElem?_set_self hset]
      · obtain ⟨j, rfl⟩ : ∃ j, i = j + 1 := ⟨i - 1, by omega⟩
        have hjc : j + 1 ≤ c - 1 := by omega
        have hidx : ((k + 1) % c + (c - 1 - (j + 1))) % c = (k % c + (c - 1 - j)) % c := by
          rw [Nat.mod_add_mod, Nat.mod_add_mod]
          have harg : k + 1 + (c - 1 - (j + 1)) = k + (c - 1 - j) := by omega
          rw [harg]
        have hne : (k % c + (c - 1 - j)) % c ≠ k % c :=
          add_mod_ne_self (k % c) (c - 1 - j) c hwlt (by omega) (by omega)
        rw [hidx, hwp]
        have hjcnt : j < min k c := by omega
        have := hslots j hjcnt
        rw [hwp] at this
        have hval : k + 1 - 1 - (j + 1) = k - 1 - j := by omega
        rw [hval]
        rw [List.getD_eq_getElem?_getD, List.getElem?_set_ne (Ne.symm hne)]
        rw [List.getD_eq_getElem?_getD] at this
        exact this

/-- C3: pushing `v 0, v 1, ..., v (k-1)` into a fresh ring buffer of capacity
`c` with `1 ≤ c < k` and then asking for the `c` most recent tensors returns
exactly `v (k-1), v (k-2), ..., v (k-c)`, most recently pushed first, with
the cursor having wrapped past zero. -/
theorem C3_ring_buffer_recency {α : Type} (c k : ℕ) (v : ℕ → α) (layer : ℕ)
    (component : String) (hc : 1 ≤ c) (hck : c < k) :
    ((ActivationRingBuffer.new c layer component).pushSeq v k).recent c =
      (List.range c).map (fun i => v (k - 1 - i)) := by
  obtain ⟨hlen, hwp, hcnt, hslots⟩ := pushSeq_invariant c layer component v hc k
  have hwlt : k % c < c := Nat.mod_lt k (by omega)
  have hmin : min k c = c := by omega
  rw [hmin] at hcnt hslots
  simp only [ActivationRingBuffer.recent, hcnt, hwp, hlen, Nat.min_self]
  refine range_filterMap_eq_map c _ _ ?_
  intro i hi
  have hidx : (if i + 1 ≤ k % c then k % c - (i + 1) else c - (i + 1 - k % c)) =
      (k % c + (c - 1 - i)) % c := by
    have hr : k % c < c := hwlt
    rcases le_or_lt (i + 1) (k % c) with h | h
    · have harg : k % c + (c - 1 - i) = (k % c - (i + 1)) + c := by omega
      have hlt : k % c - (i + 1) < c := by omega
      rw [if_pos h, harg, Nat.add_mod_right, Nat.mod_eq_of_lt hlt]
    · have hlt : k % c + (c - 1 - i) < c := by omega
      have hnot : ¬ (i + 1 ≤ k % c) := by omega
      rw [if_neg hnot, Nat.mod_eq_of_lt hlt]
      omega
  rw [hidx]
  have := hslots i (by omega)
  rw [hwp] at this
  exact this

/-- C3 witness: capacity 3, five pushes of the tagged values 0, 1, 2, 3, 4
(the spec example, with floats carried as their payloads); `recent 3`
returns 4, 3, 2 in that order. -/
theorem C3_ring_buffer_recency_witness :
    ((ActivationRingBuffer.new 3 0 "residual").pushSeq (fun i => i) 5).recent 3 =
      [4, 3, 2] :=
  (C3_ring_buffer_recency 3 5 (fun i => i) 0 "residual" (by decide) (by decide)).trans
    (by decide)
